import Mathlib

/-!
Verification development for the Rate-Limiting-API repository.

Shallow embedding conventions:
- Go `float64` values (capacities, rates, water levels, token counts) are
  modelled as exact rationals `ℚ`; Unix-second timestamps (`int64`) as `ℤ`;
  TTL durations as `ℤ` (opaque pass-through data).
- Redis entries for one rate-limit key are modelled as a pair of optional
  values (`StoredPair`): the value field (`bucket:{key}:water` resp.
  `token:{key}:tokens`) and the timestamp field (`bucket:{key}:time` resp.
  `token:{key}:time`).  `none` is an absent key (`redis.Nil`).
- Store I/O with possible failures is modelled by an oracle (`StoreResp`)
  giving the outcome of each Get/Set in program order; operations return
  their Go result together with the list of successful writes (`Write`),
  each write carrying the TTL it was issued with, exactly mirroring the
  sequence of `Set` calls in the source.
- The error-free store semantics (`respOf`/`applyWrites`) derives the pure
  state-transition step of each operation from the oracle version.
-/

/-- Outcome of one Redis `Get` in the source: a value, `redis.Nil`,
or a non-nil error. -/
inductive GetR (α : Type) where
  | found : α → GetR α
  | missing : GetR α
  | fail : String → GetR α
  deriving Repr, DecidableEq

/-- One successful Redis `Set`: which field was written, the value, and
the TTL the write was issued with. -/
inductive Write where
  | val : ℚ → ℤ → Write
  | time : ℤ → ℤ → Write
  deriving Repr, DecidableEq

/-- Responses of the store to the (up to four) Redis calls an `Allow` or
`GetStatus` body performs, in program order: Get of the value field, Get of
the time field, then the error outcome of the value `Set` and the time
`Set` (`none` = success). -/
structure StoreResp where
  getVal : GetR ℚ
  getTime : GetR ℤ
  setValErr : Option String
  setTimeErr : Option String
  deriving Repr, DecidableEq

/-- The two Redis entries backing one rate-limit key for one algorithm. -/
structure StoredPair where
  val : Option ℚ
  time : Option ℤ
  deriving Repr, DecidableEq

/-- Result of `Allow` in the source: `(allowed, remaining, error)` plus the
writes that reached the store. -/
structure AllowOut where
  allowed : Bool
  remaining : ℚ
  error : Option String
  writes : List Write
  deriving Repr, DecidableEq

/-- `limiter.Status` from `limiter.go` (field `LeakRate` is reused by the
token bucket for its refill rate, as in the source). -/
structure Status where
  key : String
  current : ℚ
  capacity : ℚ
  remaining : ℚ
  leakRate : ℚ
  isLimited : Bool
  algorithm : String
  deriving Repr, DecidableEq

/-- Result of `GetStatus` in the source: `(*Status, error)` plus the writes
that reached the store. -/
structure StatusOut where
  status : Option Status
  error : Option String
  writes : List Write
  deriving Repr, DecidableEq

/-- `limiter.LeakyBucket` (leaky_bucket.go): capacity, leak rate per
second, TTL for Redis keys. -/
structure LeakyBucket where
  Capacity : ℚ
  LeakRate : ℚ
  TTL : ℤ
  deriving Repr, DecidableEq

/-- `limiter.TokenBucket` (token_bucket.go): capacity, refill rate per
second, TTL for Redis keys. -/
structure TokenBucket where
  Capacity : ℚ
  RefillRate : ℚ
  TTL : ℤ
  deriving Repr, DecidableEq

/-- `LeakyBucket.Allow` (leaky_bucket.go lines 41-100), against a store
oracle.  Mirrors the source statement by statement: Get water (default 0 on
`redis.Nil`, abort on error), Get time (default `now`), drain, clamp at 0,
deny if `waterLevel >= Capacity` with no write, else add 1 and persist
water then time with TTL. -/
def LeakyBucket.allowR (lb : LeakyBucket) (r : StoreResp) (now : ℤ) : AllowOut :=
  match r.getVal with
  | .fail e => ⟨false, 0, some e, []⟩
  | gv =>
    let waterLevel0 : ℚ := match gv with
      | .found v => v
      | _ => 0
    match r.getTime with
    | .fail e => ⟨false, 0, some e, []⟩
    | gt =>
      let lastTime : ℤ := match gt with
        | .found t => t
        | _ => now
      let elapsed : ℚ := ((now - lastTime : ℤ) : ℚ)
      let leaked : ℚ := elapsed * lb.LeakRate
      let waterLevel1 : ℚ := waterLevel0 - leaked
      let waterLevel2 : ℚ := if waterLevel1 < 0 then 0 else waterLevel1
      if waterLevel2 ≥ lb.Capacity then
        ⟨false, 0, none, []⟩
      else
        let waterLevel3 : ℚ := waterLevel2 + 1
        match r.setValErr with
        | some e => ⟨false, 0, some e, []⟩
        | none =>
          match r.setTimeErr with
          | some e => ⟨false, 0, some e, [.val waterLevel3 lb.TTL]⟩
          | none =>
            ⟨true, lb.Capacity - waterLevel3, none,
              [.val waterLevel3 lb.TTL, .time now lb.TTL]⟩

/-- `LeakyBucket.GetStatus` (leaky_bucket.go lines 115-165), against a
store oracle.  Read-only: the source performs no `Set`. -/
def LeakyBucket.getStatusR (lb : LeakyBucket) (r : StoreResp) (key : String)
    (now : ℤ) : StatusOut :=
  match r.getVal with
  | .fail e => ⟨none, some e, []⟩
  | gv =>
    let waterLevel0 : ℚ := match gv with
      | .found v => v
      | _ => 0
    match r.getTime with
    | .fail e => ⟨none, some e, []⟩
    | gt =>
      let lastTime : ℤ := match gt with
        | .found t => t
        | _ => now
      let elapsed : ℚ := ((now - lastTime : ℤ) : ℚ)
      let leaked : ℚ := elapsed * lb.LeakRate
      let waterLevel1 : ℚ := waterLevel0 - leaked
      let waterLevel2 : ℚ := if waterLevel1 < 0 then 0 else waterLevel1
      let remaining0 : ℚ := lb.Capacity - waterLevel2
      let remaining1 : ℚ := if remaining0 < 0 then 0 else remaining0
      ⟨some ⟨key, waterLevel2, lb.Capacity, remaining1, lb.LeakRate,
        decide (waterLevel2 ≥ lb.Capacity), "leaky_bucket"⟩, none, []⟩

/-- `TokenBucket.Allow` (token_bucket.go lines 247-312), against a store
oracle: Get tokens (default `Capacity` on `redis.Nil`), Get time (default
`now`), refill, cap at `Capacity`, deny if `tokens < 1` with no write, else
consume 1 and persist tokens then time with TTL. -/
def TokenBucket.allowR (tb : TokenBucket) (r : StoreResp) (now : ℤ) : AllowOut :=
  match r.getVal with
  | .fail e => ⟨false, 0, some e, []⟩
  | gv =>
    let tokens0 : ℚ := match gv with
      | .found v => v
      | _ => tb.Capacity
    match r.getTime with
    | .fail e => ⟨false, 0, some e, []⟩
    | gt =>
      let lastTime : ℤ := match gt with
        | .found t => t
        | _ => now
      let elapsed : ℚ := ((now - lastTime : ℤ) : ℚ)
      let tokensToAdd : ℚ := elapsed * tb.RefillRate
      let tokens1 : ℚ := tokens0 + tokensToAdd
      let tokens2 : ℚ := if tokens1 > tb.Capacity then tb.Capacity else tokens1
      if tokens2 < 1 then
        ⟨false, 0, none, []⟩
      else
        let tokens3 : ℚ := tokens2 - 1
        match r.setValErr with
        | some e => ⟨false, 0, some e, []⟩
        | none =>
          match r.setTimeErr with
          | some e => ⟨false, 0, some e, [.val tokens3 tb.TTL]⟩
          | none =>
            ⟨true, tokens3, none, [.val tokens3 tb.TTL, .time now tb.TTL]⟩

/-- `TokenBucket.GetStatus` (token_bucket.go lines 328-399), against a
store oracle.  Unlike the leaky variant it persists the refreshed pair when
the tokens entry existed and `elapsed > 0`; those `Set` calls discard their
errors in the source (`storage.RedisClient.Set(...)` with no `.Err()`), so
the oracle's set errors only affect whether the write lands. -/
def TokenBucket.getStatusR (tb : TokenBucket) (r : StoreResp) (key : String)
    (now : ℤ) : StatusOut :=
  match r.getVal with
  | .fail e => ⟨none, some e, []⟩
  | gv =>
    let tokens0 : ℚ := match gv with
      | .found v => v
      | _ => tb.Capacity
    let keyExists : Bool := match gv with
      | .found _ => true
      | _ => false
    match r.getTime with
    | .fail e => ⟨none, some e, []⟩
    | gt =>
      let lastTime : ℤ := match gt with
        | .found t => t
        | _ => now
      let elapsed : ℚ := ((now - lastTime : ℤ) : ℚ)
      let tokensToAdd : ℚ := elapsed * tb.RefillRate
      let tokens1 : ℚ := tokens0 + tokensToAdd
      let tokens2 : ℚ := if tokens1 > tb.Capacity then tb.Capacity else tokens1
      let writes : List Write :=
        if keyExists ∧ elapsed > 0 then
          (match r.setValErr with
            | none => [Write.val tokens2 tb.TTL]
            | some _ => []) ++
          (match r.setTimeErr with
            | none => [Write.time now tb.TTL]
            | some _ => [])
        else []
      let currentUsage0 : ℚ := tb.Capacity - tokens2
      let currentUsage1 : ℚ := if currentUsage0 < 0 then 0 else currentUsage0
      ⟨some ⟨key, currentUsage1, tb.Capacity, tokens2, tb.RefillRate,
        decide (tokens2 < 1), "token_bucket"⟩, none, writes⟩

/-- `Reset` of either algorithm (leaky_bucket.go lines 103-112,
token_bucket.go lines 315-325): one pipelined deletion of both fields;
the `Exec` error is propagated.  On success both entries are gone; the
deletion of an absent entry is a no-op success of the store. -/
def resetR (execErr : Option String) (st : StoredPair) :
    Option String × StoredPair :=
  match execErr with
  | some e => (some e, st)
  | none => (none, ⟨none, none⟩)

/-- Error-free store responses derived from the actual store content. -/
def respOf (st : StoredPair) : StoreResp :=
  ⟨match st.val with
    | some v => .found v
    | none => .missing,
   match st.time with
    | some t => .found t
    | none => .missing,
   none, none⟩

/-- Apply a list of successful writes to the stored pair, in order. -/
def applyWrites (st : StoredPair) : List Write → StoredPair
  | [] => st
  | .val v _ :: ws => applyWrites ⟨some v, st.time⟩ ws
  | .time t _ :: ws => applyWrites ⟨st.val, some t⟩ ws

/-- Pure error-free step of `LeakyBucket.Allow`:
`((allowed, remaining), new store content)`. -/
def LeakyBucket.allowStep (lb : LeakyBucket) (st : StoredPair) (now : ℤ) :
    (Bool × ℚ) × StoredPair :=
  let o := lb.allowR (respOf st) now
  ((o.allowed, o.remaining), applyWrites st o.writes)

/-- Pure error-free step of `TokenBucket.Allow`. -/
def TokenBucket.allowStep (tb : TokenBucket) (st : StoredPair) (now : ℤ) :
    (Bool × ℚ) × StoredPair :=
  let o := tb.allowR (respOf st) now
  ((o.allowed, o.remaining), applyWrites st o.writes)

/-- Pure error-free step of `TokenBucket.GetStatus`. -/
def TokenBucket.getStatusStep (tb : TokenBucket) (st : StoredPair)
    (key : String) (now : ℤ) : Option Status × StoredPair :=
  let o := tb.getStatusR (respOf st) key now
  (o.status, applyWrites st o.writes)

/-- Error-free `LeakyBucket.GetStatus` (writes nothing, so no state out). -/
def LeakyBucket.getStatusStep (lb : LeakyBucket) (st : StoredPair)
    (key : String) (now : ℤ) : Option Status :=
  (lb.getStatusR (respOf st) key now).status

/-! ### Manager (manager.go) -/

/-- Which concrete algorithm instance `GetActiveLimiter` returns. -/
inductive ActiveAlg where
  | leaky
  | token
  deriving Repr, DecidableEq

/-- `limiter.LimiterManager` (manager.go): both algorithm instances plus
the name of the active one (the `sync.RWMutex` guards the in-memory field
and has no sequential content). -/
structure LimiterManager where
  leakyBucket : LeakyBucket
  tokenBucket : TokenBucket
  current : String
  deriving Repr, DecidableEq

/-- `NewLimiterManager` (manager.go lines 19-25): stores the argument
verbatim, no validation. -/
def NewLimiterManager (leaky : LeakyBucket) (token : TokenBucket)
    (defaultAlgorithm : String) : LimiterManager :=
  ⟨leaky, token, defaultAlgorithm⟩

/-- `LimiterManager.GetCurrentAlgorithm` (manager.go lines 28-32). -/
def LimiterManager.GetCurrentAlgorithm (m : LimiterManager) : String :=
  m.current

/-- `LimiterManager.SetAlgorithm` (manager.go lines 37-45): returns the
success flag and the (possibly) updated manager. -/
def LimiterManager.SetAlgorithm (m : LimiterManager) (algorithm : String) :
    Bool × LimiterManager :=
  if algorithm ≠ "leaky_bucket" ∧ algorithm ≠ "token_bucket" then
    (false, m)
  else
    (true, { m with current := algorithm })

/-- `LimiterManager.GetActiveLimiter` (manager.go lines 48-55): the token
bucket iff `current == "token_bucket"`, otherwise the leaky bucket. -/
def LimiterManager.GetActiveLimiter (m : LimiterManager) : ActiveAlg :=
  if m.current = "token_bucket" then .token else .leaky

/-- `LimiterManager.Allow` (manager.go lines 58-60): delegates to the
active limiter.  The manager-level state is the pair of stored pairs
(leaky-keyed entries, token-keyed entries). -/
def LimiterManager.managerAllow (m : LimiterManager)
    (stL stT : StoredPair) (now : ℤ) :
    (Bool × ℚ) × StoredPair × StoredPair :=
  match m.GetActiveLimiter with
  | .token =>
    let r := m.tokenBucket.allowStep stT now
    (r.1, stL, r.2)
  | .leaky =>
    let r := m.leakyBucket.allowStep stL now
    (r.1, r.2, stT)

/-- `LimiterManager.Reset` (manager.go lines 63-65): delegates to the
active limiter. -/
def LimiterManager.managerReset (m : LimiterManager)
    (stL stT : StoredPair) : StoredPair × StoredPair :=
  match m.GetActiveLimiter with
  | .token => (stL, (resetR none stT).2)
  | .leaky => ((resetR none stL).2, stT)

/-- `LimiterManager.GetStatus` (manager.go lines 68-70): delegates to the
active limiter. -/
def LimiterManager.managerGetStatus (m : LimiterManager)
    (stL stT : StoredPair) (key : String) (now : ℤ) :
    Option Status × StoredPair × StoredPair :=
  match m.GetActiveLimiter with
  | .token =>
    let r := m.tokenBucket.getStatusStep stT key now
    (r.1, stL, r.2)
  | .leaky =>
    (m.leakyBucket.getStatusStep stL key now, stL, stT)

/-! ### Spec-worded reference definitions (for the refinement claims) -/

/-- Spec-worded Leak-Based `Allow` (spec §4.1 and claim C1): read the pair
defaulting to `(0, now)`, `drained = max(water_level - elapsed*rate, 0)`;
if `drained >= capacity` return `(false, 0, nil)` with no write, else
persist `(drained + 1, now)` with the TTL and return
`(true, capacity - (drained + 1), nil)`. -/
def specLeakyAllow (capacity rate : ℚ) (ttl : ℤ) (st : StoredPair)
    (now : ℤ) : AllowOut :=
  let waterLevel : ℚ := st.val.getD 0
  let lastUpdate : ℤ := st.time.getD now
  let elapsed : ℚ := ((now - lastUpdate : ℤ) : ℚ)
  let drained : ℚ := max (waterLevel - elapsed * rate) 0
  if drained ≥ capacity then
    ⟨false, 0, none, []⟩
  else
    ⟨true, capacity - (drained + 1), none,
      [.val (drained + 1) ttl, .time now ttl]⟩

/-- Spec-worded Refill-Based `Allow` (spec §4.2 and claim C2): read the
pair defaulting to `(capacity, now)`,
`refilled = min(capacity, tokens + elapsed*rate)`; if `refilled < 1`
return `(false, 0, nil)` with no write, else persist
`(refilled - 1, now)` with the TTL and return `(true, refilled - 1, nil)`. -/
def specTokenAllow (capacity rate : ℚ) (ttl : ℤ) (st : StoredPair)
    (now : ℤ) : AllowOut :=
  let tokens : ℚ := st.val.getD capacity
  let lastUpdate : ℤ := st.time.getD now
  let elapsed : ℚ := ((now - lastUpdate : ℤ) : ℚ)
  let refilled : ℚ := min capacity (tokens + elapsed * rate)
  if refilled < 1 then
    ⟨false, 0, none, []⟩
  else
    ⟨true, refilled - 1, none, [.val (refilled - 1) ttl, .time now ttl]⟩

/-! ### Concrete instances and a reachable trace (used by witnesses and
counterexamples) -/

/-- Manager instance used by witnesses. -/
def mgr0 : LimiterManager :=
  NewLimiterManager ⟨5, 1, 60⟩ ⟨5, 2, 60⟩ ("leaky_bucket")

/-- Leaky bucket with `capacity = 5` and `rate = 1/2` per second. -/
def lbEx : LeakyBucket := ⟨5, 1/2, 60⟩

/-- Store contents after one `Allow` on a fresh key at `now = 0`. -/
def lbStA : StoredPair := (lbEx.allowStep ⟨none, none⟩ 0).2

/-- ... after a second `Allow` at `now = 0`. -/
def lbStB : StoredPair := (lbEx.allowStep lbStA 0).2

/-- ... after a third `Allow` at `now = 0`. -/
def lbStC : StoredPair := (lbEx.allowStep lbStB 0).2

/-- ... after a fourth `Allow` at `now = 0`. -/
def lbStD : StoredPair := (lbEx.allowStep lbStC 0).2

/-- ... after a fifth `Allow` at `now = 0`: the stored water level is
now the full capacity 5. -/
def lbStE : StoredPair := (lbEx.allowStep lbStD 0).2

/-- Result of a sixth `Allow` one second later (`now = 1`): the drained
level is `5 - 1/2 = 9/2 < 5`, so the call is admitted and persists
`9/2 + 1 = 11/2`, which exceeds the capacity 5. -/
def lbOutF : AllowOut := lbEx.allowR (respOf lbStE) 1

/-- Store contents after that sixth `Allow`. -/
def lbStF : StoredPair := applyWrites lbStE lbOutF.writes

/-! ### Helper lemmas -/

/-- The source's lower clamp `if x < 0 then 0 else x` is `max x 0`. -/
theorem clamp_lower_eq_max (x : ℚ) : (if x < 0 then 0 else x) = max x 0 := by
  rcases le_or_lt 0 x with h | h
  · rw [if_neg (not_lt.mpr h), max_eq_left h]
  · rw [if_pos h, max_eq_right h.le]

/-- The source's upper cap `if x > c then c else x` is `min c x`. -/
theorem cap_upper_eq_min (c x : ℚ) : (if x > c then c else x) = min c x := by
  rcases le_or_lt x c with h | h
  · rw [if_neg (not_lt.mpr h), min_eq_right h]
  · rw [if_pos h, min_eq_left h.le]

/-! ### C1, C2: the two Allow bodies refine their spec wording -/

/-- C1: For every key state, Leak-Based `Allow` reads the stored pair
`(water_level, last_update)` defaulting to `(0, now)` when absent, computes
`drained = max(water_level - elapsed*rate, 0)`; if `drained >= capacity` it
returns `(false, 0, nil)` without writing; otherwise it persists
`(drained + 1, now)` with the configured TTL and returns
`(true, capacity - (drained + 1), nil)`. -/
theorem leaky_allow_refines_spec (lb : LeakyBucket) (st : StoredPair)
    (now : ℤ) :
    lb.allowR (respOf st) now =
      specLeakyAllow lb.Capacity lb.LeakRate lb.TTL st now := by
  rcases st with ⟨val, time⟩
  rcases val with _ | w <;> rcases time with _ | t <;>
    simp only [LeakyBucket.allowR, specLeakyAllow, respOf, Option.getD,
      clamp_lower_eq_max]

/-- C2: For every key state, Refill-Based `Allow` reads the stored pair
`(tokens, last_update)` defaulting to `(capacity, now)` when absent,
computes `refilled = min(capacity, tokens + elapsed*rate)`; if
`refilled < 1` it returns `(false, 0, nil)` without writing; otherwise it
persists `(refilled - 1, now)` with the configured TTL and returns
`(true, refilled - 1, nil)`. -/
theorem token_allow_refines_spec (tb : TokenBucket) (st : StoredPair)
    (now : ℤ) :
    tb.allowR (respOf st) now =
      specTokenAllow tb.Capacity tb.RefillRate tb.TTL st now := by
  rcases st with ⟨val, time⟩
  rcases val with _ | w <;> rcases time with _ | t <;>
    simp only [TokenBucket.allowR, specTokenAllow, respOf, Option.getD,
      cap_upper_eq_min]

/-- A lower clamp of a nonnegative quantity is the identity. -/
theorem clamp_lower_noop (x : ℚ) (h : 0 ≤ x) : (if x < 0 then 0 else x) = x :=
  if_neg (not_lt.mpr h)

/-- C6: For a key holding fill level `L0` at time `t0` and any `Δ ≥ 0`,
Leak-Based `GetStatus` at `t0 + Δ` writes nothing and reports
`current = max(L0 - Δ*rate, 0)`, `remaining = max(capacity - current, 0)`
and `is_limited = (current ≥ capacity)`. -/
theorem leaky_getStatus_readonly_decay (lb : LeakyBucket) (key : String)
    (L0 : ℚ) (t0 Δ : ℤ) (hΔ : 0 ≤ Δ) :
    lb.getStatusR (respOf ⟨some L0, some t0⟩) key (t0 + Δ) =
      ⟨some ⟨key, max (L0 - (Δ : ℚ) * lb.LeakRate) 0, lb.Capacity,
        max (lb.Capacity - max (L0 - (Δ : ℚ) * lb.LeakRate) 0) 0, lb.LeakRate,
        decide (max (L0 - (Δ : ℚ) * lb.LeakRate) 0 ≥ lb.Capacity),
        "leaky_bucket"⟩, none, []⟩ := by
  have h : ((t0 + Δ - t0 : ℤ) : ℚ) = (Δ : ℚ) := by push_cast; ring
  simp only [LeakyBucket.getStatusR, respOf, clamp_lower_eq_max, h]

/-- Witness for C6 at `capacity = 5`, `rate = 1`, `L0 = 2`, `t0 = 0`,
`Δ = 3`. -/
theorem leaky_getStatus_readonly_decay_witness :
    (LeakyBucket.mk 5 1 60).getStatusR (respOf ⟨some 2, some 0⟩) ("k")
        (0 + 3) =
      ⟨some ⟨("k"), max (2 - ((3 : ℤ) : ℚ) * 1) 0, 5,
        max (5 - max (2 - ((3 : ℤ) : ℚ) * 1) 0) 0, 1,
        decide (max (2 - ((3 : ℤ) : ℚ) * 1) 0 ≥ (5 : ℚ)),
        "leaky_bucket"⟩, none, []⟩ :=
  leaky_getStatus_readonly_decay ⟨5, 1, 60⟩ ("k") 2 0 3 (by decide)

/-- C7: For every key state, Refill-Based `GetStatus` persists the
refreshed `(tokens, now)` pair exactly when the tokens entry existed and
`elapsed > 0`, and its snapshot reports
`current_usage = capacity - tokens`, `remaining = tokens`,
`is_limited = (tokens < 1)` for `tokens = min(capacity,
stored + elapsed*rate)`. -/
theorem token_getStatus_write_iff (tb : TokenBucket) (st : StoredPair)
    (key : String) (now : ℤ) :
    tb.getStatusR (respOf st) key now =
      ⟨some ⟨key,
        tb.Capacity -
          min tb.Capacity
            (st.val.getD tb.Capacity +
              ((now - st.time.getD now : ℤ) : ℚ) * tb.RefillRate),
        tb.Capacity,
        min tb.Capacity
          (st.val.getD tb.Capacity +
            ((now - st.time.getD now : ℤ) : ℚ) * tb.RefillRate),
        tb.RefillRate,
        decide (min tb.Capacity
          (st.val.getD tb.Capacity +
            ((now - st.time.getD now : ℤ) : ℚ) * tb.RefillRate) < 1),
        "token_bucket"⟩, none,
        if st.val.isSome ∧
            ((now - st.time.getD now : ℤ) : ℚ) > 0 then
          [Write.val
            (min tb.Capacity
              (st.val.getD tb.Capacity +
                ((now - st.time.getD now : ℤ) : ℚ) * tb.RefillRate))
            tb.TTL,
           Write.time now tb.TTL]
        else []⟩ := by
  rcases st with ⟨val, time⟩
  rcases val with _ | w <;> rcases time with _ | t <;>
    simp only [TokenBucket.getStatusR, respOf, Option.getD, Option.isSome,
      cap_upper_eq_min] <;>
    rw [clamp_lower_noop _ (sub_nonneg.mpr (min_le_left _ _))] <;>
    simp

/-! ### C8, C9, C10: manager and reset -/

/-- C8: `SetAlgorithm` succeeds exactly for the literals
`"leaky_bucket"` and `"token_bucket"`, leaves the manager unchanged on
failure, and a successful switch to `"token_bucket"` is observed by the
very next `GetCurrentAlgorithm`. -/
theorem manager_setAlgorithm_validates (m : LimiterManager) (name : String) :
    ((m.SetAlgorithm name).1 = true ↔
      name = "leaky_bucket" ∨ name = "token_bucket") ∧
    ((m.SetAlgorithm name).1 = false → (m.SetAlgorithm name).2 = m) ∧
    (m.SetAlgorithm ("token_bucket")).1 = true ∧
    ((m.SetAlgorithm ("token_bucket")).2).GetCurrentAlgorithm =
      "token_bucket" := by
  unfold LimiterManager.SetAlgorithm LimiterManager.GetCurrentAlgorithm
  by_cases h1 : name = "leaky_bucket" <;>
    by_cases h2 : name = "token_bucket" <;>
    simp [h1, h2]

/-- Witness for C8 at a concrete manager and the invalid name
`"bogus"`. -/
theorem manager_setAlgorithm_validates_witness :
    ((mgr0.SetAlgorithm ("bogus")).1 = true ↔
      ("bogus" : String) = "leaky_bucket" ∨
        ("bogus" : String) = "token_bucket") ∧
    ((mgr0.SetAlgorithm ("bogus")).1 = false →
      (mgr0.SetAlgorithm ("bogus")).2 = mgr0) ∧
    (mgr0.SetAlgorithm ("token_bucket")).1 = true ∧
    ((mgr0.SetAlgorithm ("token_bucket")).2).GetCurrentAlgorithm =
      "token_bucket" :=
  manager_setAlgorithm_validates mgr0 ("bogus")

/-- C9: `Reset` deletes both state fields in one step, propagates the
pipeline-exec error, is an error-free no-op when run twice in a row, and a
subsequent `Allow` of either algorithm behaves exactly as on an unseen
key. -/
theorem reset_deletes_both_and_idempotent :
    (∀ st : StoredPair, resetR none st = (none, ⟨none, none⟩)) ∧
    (∀ (e : Option String) (st : StoredPair), (resetR e st).1 = e) ∧
    (∀ st : StoredPair,
      resetR none (resetR none st).2 = (none, ⟨none, none⟩)) ∧
    (∀ (lb : LeakyBucket) (st : StoredPair) (now : ℤ),
      lb.allowStep (resetR none st).2 now = lb.allowStep ⟨none, none⟩ now) ∧
    (∀ (tb : TokenBucket) (st : StoredPair) (now : ℤ),
      tb.allowStep (resetR none st).2 now = tb.allowStep ⟨none, none⟩ now) := by
  refine ⟨fun st => rfl, fun e st => ?_, fun st => rfl,
    fun lb st now => rfl, fun tb st now => rfl⟩
  cases e <;> rfl

/-- C10: `NewLimiterManager` stores any `defaultAlgorithm` string
verbatim, and for every string other than `"token_bucket"` the active
limiter is the leaky bucket, so `Allow`, `Reset` and `GetStatus` all
delegate to the leak-based algorithm. -/
theorem manager_unvalidated_default_leaky (l : LeakyBucket)
    (t : TokenBucket) (s : String) (h : s ≠ "token_bucket")
    (stL stT : StoredPair) (now : ℤ) (key : String) :
    (NewLimiterManager l t s).current = s ∧
    (NewLimiterManager l t s).GetActiveLimiter = .leaky ∧
    (NewLimiterManager l t s).managerAllow stL stT now =
      ((l.allowStep stL now).1, (l.allowStep stL now).2, stT) ∧
    (NewLimiterManager l t s).managerReset stL stT =
      ((resetR none stL).2, stT) ∧
    (NewLimiterManager l t s).managerGetStatus stL stT key now =
      (l.getStatusStep stL key now, stL, stT) := by
  have hact : (NewLimiterManager l t s).GetActiveLimiter = .leaky := by
    unfold NewLimiterManager LimiterManager.GetActiveLimiter
    simp [h]
  refine ⟨rfl, hact, ?_, ?_, ?_⟩
  · simp only [LimiterManager.managerAllow, hact]
    rfl
  · simp only [LimiterManager.managerReset, hact]
  · simp only [LimiterManager.managerGetStatus, hact]
    rfl

/-- Witness for C10 at the empty default-algorithm string. -/
theorem manager_unvalidated_default_leaky_witness :
    (NewLimiterManager ⟨5, 1, 60⟩ ⟨5, 2, 60⟩ ("")).current = "" ∧
    (NewLimiterManager ⟨5, 1, 60⟩ ⟨5, 2, 60⟩ ("")).GetActiveLimiter =
      .leaky ∧
    (NewLimiterManager ⟨5, 1, 60⟩ ⟨5, 2, 60⟩ ("")).managerAllow
        ⟨none, none⟩ ⟨none, none⟩ 0 =
      (((LeakyBucket.mk 5 1 60).allowStep ⟨none, none⟩ 0).1,
        ((LeakyBucket.mk 5 1 60).allowStep ⟨none, none⟩ 0).2,
        (⟨none, none⟩ : StoredPair)) ∧
    (NewLimiterManager ⟨5, 1, 60⟩ ⟨5, 2, 60⟩ ("")).managerReset
        ⟨none, none⟩ ⟨none, none⟩ =
      ((resetR none ⟨none, none⟩).2, (⟨none, none⟩ : StoredPair)) ∧
    (NewLimiterManager ⟨5, 1, 60⟩ ⟨5, 2, 60⟩ ("")).managerGetStatus
        ⟨none, none⟩ ⟨none, none⟩ ("k") 0 =
      ((LeakyBucket.mk 5 1 60).getStatusStep ⟨none, none⟩ ("k") 0,
        (⟨none, none⟩ : StoredPair), (⟨none, none⟩ : StoredPair)) :=
  manager_unvalidated_default_leaky ⟨5, 1, 60⟩ ⟨5, 2, 60⟩ ("")
    (by decide) ⟨none, none⟩ ⟨none, none⟩ 0 ("k")

/-! ### C3: bounds on persisted state values -/

/-- Evaluation of the first trace step. -/
theorem lbStA_eq : lbStA = ⟨some 1, some 0⟩ := by
  norm_num [lbStA, lbEx, LeakyBucket.allowStep, LeakyBucket.allowR, respOf,
    applyWrites]

/-- Evaluation of the second trace step. -/
theorem lbStB_eq : lbStB = ⟨some 2, some 0⟩ := by
  norm_num [lbStB, lbStA_eq, lbEx, LeakyBucket.allowStep,
    LeakyBucket.allowR, respOf, applyWrites]

/-- Evaluation of the third trace step. -/
theorem lbStC_eq : lbStC = ⟨some 3, some 0⟩ := by
  norm_num [lbStC, lbStB_eq, lbEx, LeakyBucket.allowStep,
    LeakyBucket.allowR, respOf, applyWrites]

/-- Evaluation of the fourth trace step. -/
theorem lbStD_eq : lbStD = ⟨some 4, some 0⟩ := by
  norm_num [lbStD, lbStC_eq, lbEx, LeakyBucket.allowStep,
    LeakyBucket.allowR, respOf, applyWrites]

/-- Evaluation of the fifth trace step. -/
theorem lbStE_eq : lbStE = ⟨some 5, some 0⟩ := by
  norm_num [lbStE, lbStD_eq, lbEx, LeakyBucket.allowStep,
    LeakyBucket.allowR, respOf, applyWrites]

/-- Evaluation of the sixth call's output: admitted, and it persists the
water level `11/2 > 5`. -/
theorem lbOutF_eq :
    lbOutF = ⟨true, -(1/2), none,
      [Write.val (11/2) 60, Write.time 1 60]⟩ := by
  norm_num [lbOutF, lbStE_eq, lbEx, LeakyBucket.allowR, respOf]

/-- Evaluation of the store contents after the sixth call. -/
theorem lbStF_eq : lbStF = ⟨some (11/2), some 1⟩ := by
  norm_num [lbStF, lbOutF_eq, applyWrites]

/-- Counterexample to C3 as stated: starting from an empty store, five
admitted `Allow` calls at `now = 0` followed by one at `now = 1` form a
reachable trace whose last call persists the water level `11/2`, which is
strictly greater than the capacity `5`. -/
theorem leaky_persist_exceeds_capacity_cex :
    Write.val (11/2) 60 ∈ lbOutF.writes ∧
      ¬((11/2 : ℚ) ≤ lbEx.Capacity) := by
  rw [lbOutF_eq]
  norm_num [lbEx]

/-- Write-value bounds of Leak-Based `Allow`: every persisted water level
lies in `[0, capacity + 1)`. -/
theorem leaky_allowR_val_mem (lb : LeakyBucket) (r : StoreResp) (now : ℤ)
    (v : ℚ) (t : ℤ) (h : Write.val v t ∈ (lb.allowR r now).writes) :
    0 ≤ v ∧ v < lb.Capacity + 1 := by
  rcases r with ⟨gv, gt, sv, stE⟩
  cases gv <;> cases gt <;> cases sv <;> cases stE <;>
    simp only [LeakyBucket.allowR, List.mem_cons, List.not_mem_nil,
      or_false, false_or] at h <;>
    split_ifs at h <;>
    simp_all <;>
    linarith

/-- Write-value bounds of Refill-Based `Allow`: every persisted token
count lies in `[0, capacity]`. -/
theorem token_allowR_val_mem (tb : TokenBucket) (r : StoreResp) (now : ℤ)
    (v : ℚ) (t : ℤ) (h : Write.val v t ∈ (tb.allowR r now).writes) :
    0 ≤ v ∧ v ≤ tb.Capacity := by
  rcases r with ⟨gv, gt, sv, stE⟩
  cases gv <;> cases gt <;> cases sv <;> cases stE <;>
    simp only [TokenBucket.allowR, List.mem_cons, List.not_mem_nil,
      or_false, false_or] at h <;>
    split_ifs at h <;>
    simp_all <;>
    linarith

/-- Write-value bounds of Refill-Based `GetStatus`, given a nonnegative
configuration and a nonnegative stored token count. -/
theorem token_statusR_val_mem (tb : TokenBucket) (st : StoredPair)
    (key : String) (now : ℤ) (v : ℚ) (t : ℤ)
    (hcap : 0 ≤ tb.Capacity) (hrate : 0 ≤ tb.RefillRate)
    (hst : ∀ w, st.val = some w → 0 ≤ w)
    (h : Write.val v t ∈ (tb.getStatusR (respOf st) key now).writes) :
    0 ≤ v ∧ v ≤ tb.Capacity := by
  rcases st with ⟨val, time⟩
  rcases val with _ | w <;> rcases time with _ | t0 <;>
    simp only [TokenBucket.getStatusR, respOf, List.mem_cons,
      List.not_mem_nil, List.append_nil, List.nil_append, or_false,
      false_or] at h <;>
    split_ifs at h <;>
    simp_all <;>
    first
      | linarith
      | (have hnt : (t0 : ℚ) ≤ (now : ℚ) := by
           exact_mod_cast le_of_lt ‹t0 < now›
         nlinarith [mul_nonneg (by linarith : (0:ℚ) ≤ (now : ℚ) - (t0 : ℚ))
           hrate])

/-- C3 (amended): every state value persisted by any operation is
nonnegative; the Refill-Based token count never exceeds capacity (for
`GetStatus` writes, under a nonnegative configuration and stored value);
the Leak-Based persisted water level is strictly below `capacity + 1` but,
as the counterexample trace shows, it can exceed the capacity itself. -/
theorem persisted_state_bounds :
    (∀ (lb : LeakyBucket) (r : StoreResp) (now : ℤ) (v : ℚ) (t : ℤ),
      Write.val v t ∈ (lb.allowR r now).writes →
        0 ≤ v ∧ v < lb.Capacity + 1) ∧
    (∀ (tb : TokenBucket) (r : StoreResp) (now : ℤ) (v : ℚ) (t : ℤ),
      Write.val v t ∈ (tb.allowR r now).writes →
        0 ≤ v ∧ v ≤ tb.Capacity) ∧
    (∀ (tb : TokenBucket) (st : StoredPair) (key : String) (now : ℤ)
      (v : ℚ) (t : ℤ), 0 ≤ tb.Capacity → 0 ≤ tb.RefillRate →
      (∀ w, st.val = some w → 0 ≤ w) →
      Write.val v t ∈ (tb.getStatusR (respOf st) key now).writes →
        0 ≤ v ∧ v ≤ tb.Capacity) :=
  ⟨leaky_allowR_val_mem, token_allowR_val_mem, token_statusR_val_mem⟩

/-- Witness for C3 (amended) on a fresh key: the first `Allow` persists
the water level 1, which is within `[0, 5 + 1)`. -/
theorem persisted_state_bounds_witness :
    (0 : ℚ) ≤ 1 ∧ (1 : ℚ) < (5 : ℚ) + 1 :=
  persisted_state_bounds.1 ⟨5, 1/2, 60⟩ (respOf ⟨none, none⟩) 0 1 60
    (by norm_num [LeakyBucket.allowR, respOf])

/-! ### C4: status snapshot sum invariant -/

/-- Every Leak-Based snapshot satisfies
`current + remaining = max(capacity, current)`. -/
theorem leaky_statusR_sum (lb : LeakyBucket) (r : StoreResp) (key : String)
    (now : ℤ) (s : Status)
    (h : (lb.getStatusR r key now).status = some s) :
    s.current + s.remaining = max s.capacity s.current := by
  rcases r with ⟨gv, gt, sv, stE⟩
  cases gv <;> cases gt <;>
    simp only [LeakyBucket.getStatusR, Option.some.injEq,
      reduceCtorEq] at h <;>
    subst h <;>
    simp only [max_def] <;>
    split_ifs <;>
    linarith

/-- Every Refill-Based snapshot satisfies
`current + remaining = capacity` exactly. -/
theorem token_statusR_sum (tb : TokenBucket) (r : StoreResp) (key : String)
    (now : ℤ) (s : Status)
    (h : (tb.getStatusR r key now).status = some s) :
    s.current + s.remaining = s.capacity := by
  rcases r with ⟨gv, gt, sv, stE⟩
  cases gv <;> cases gt <;>
    simp only [TokenBucket.getStatusR, Option.some.injEq,
      reduceCtorEq] at h <;>
    subst h <;>
    split_ifs <;>
    simp_all <;>
    linarith

/-- C4 (amended): every Refill-Based snapshot satisfies
`Current + Remaining = Capacity` exactly; every Leak-Based snapshot
satisfies `Current + Remaining = max(Capacity, Current)`, which agrees
with the claimed invariant exactly when `Current ≤ Capacity` — and the
counterexample trace reaches a stored state whose snapshot misses the
`1e-9` tolerance by `1/2`. -/
theorem status_sum_characterization :
    (∀ (tb : TokenBucket) (r : StoreResp) (key : String) (now : ℤ)
      (s : Status), (tb.getStatusR r key now).status = some s →
        s.current + s.remaining = s.capacity) ∧
    (∀ (lb : LeakyBucket) (r : StoreResp) (key : String) (now : ℤ)
      (s : Status), (lb.getStatusR r key now).status = some s →
        s.current + s.remaining = max s.capacity s.current) :=
  ⟨token_statusR_sum, leaky_statusR_sum⟩

/-- Witness for C4 (amended): the Refill-Based snapshot of a fresh key at
capacity 5 reports `current = 0`, `remaining = 5`, and indeed
`0 + 5 = 5`. -/
theorem status_sum_characterization_witness :
    ((⟨("k"), 0, 5, 5, 2, false, "token_bucket"⟩ : Status).current +
        (⟨("k"), 0, 5, 5, 2, false, "token_bucket"⟩ : Status).remaining =
      (⟨("k"), 0, 5, 5, 2, false, "token_bucket"⟩ : Status).capacity) :=
  status_sum_characterization.1 ⟨5, 2, 60⟩ (respOf ⟨none, none⟩) ("k") 0
    ⟨("k"), 0, 5, 5, 2, false, "token_bucket"⟩
    (by norm_num [TokenBucket.getStatusR, respOf])

/-- Counterexample to C4 as stated: the reachable stored state
`(water, time) = (11/2, 1)` (end of the counterexample trace) yields a
Leak-Based snapshot with `current = 11/2`, `remaining = 0`,
`capacity = 5`, so `current + remaining - capacity = 1/2`, far outside
the `1e-9` tolerance. -/
theorem leaky_status_tolerance_cex :
    ((lbEx.getStatusR (respOf lbStF) ("k") 1).status.map
        (fun s => s.current + s.remaining - s.capacity)) = some (1/2) ∧
      ¬(|(1/2 : ℚ)| ≤ 1/1000000000) := by
  rw [lbStF_eq]
  norm_num [lbEx, LeakyBucket.getStatusR, respOf, abs]

/-! ### C5: store errors during Allow -/

/-- Error-path characterization of Leak-Based `Allow`: on any store error
the call returns `(false, 0, error)` with one of the store's own errors,
and nothing was written unless the failure was the second `Set` (the
timestamp), in which case exactly the water field has been written. -/
theorem leaky_allowR_error_cases (lb : LeakyBucket) (r : StoreResp)
    (now : ℤ) (e : String) (h : (lb.allowR r now).error = some e) :
    (lb.allowR r now).allowed = false ∧ (lb.allowR r now).remaining = 0 ∧
    (r.getVal = .fail e ∨ r.getTime = .fail e ∨ r.setValErr = some e ∨
      r.setTimeErr = some e) ∧
    ((lb.allowR r now).writes = [] ∨
      (r.setValErr = none ∧ r.setTimeErr = some e ∧
        ∃ w, (lb.allowR r now).writes = [Write.val w lb.TTL])) := by
  rcases r with ⟨gv, gt, sv, stE⟩
  cases gv <;> cases gt <;> cases sv <;> cases stE <;>
    simp only [LeakyBucket.allowR] at h ⊢ <;>
    (try split_ifs at h ⊢) <;>
    simp_all

/-- Error-path characterization of Refill-Based `Allow`, identical in
shape to the leaky one. -/
theorem token_allowR_error_cases (tb : TokenBucket) (r : StoreResp)
    (now : ℤ) (e : String) (h : (tb.allowR r now).error = some e) :
    (tb.allowR r now).allowed = false ∧ (tb.allowR r now).remaining = 0 ∧
    (r.getVal = .fail e ∨ r.getTime = .fail e ∨ r.setValErr = some e ∨
      r.setTimeErr = some e) ∧
    ((tb.allowR r now).writes = [] ∨
      (r.setValErr = none ∧ r.setTimeErr = some e ∧
        ∃ w, (tb.allowR r now).writes = [Write.val w tb.TTL])) := by
  rcases r with ⟨gv, gt, sv, stE⟩
  cases gv <;> cases gt <;> cases sv <;> cases stE <;>
    simp only [TokenBucket.allowR] at h ⊢ <;>
    (try split_ifs at h ⊢) <;>
    simp_all

/-- C5 (amended): any store error during `Allow` of either algorithm
yields `(false, 0, error)` with the store's error surfaced unmodified;
read errors and a first-`Set` failure abort before any write, but when
the second `Set` (the timestamp) fails the value field has already been
written. -/
theorem allow_error_surfaced :
    (∀ (lb : LeakyBucket) (r : StoreResp) (now : ℤ) (e : String),
      (lb.allowR r now).error = some e →
      (lb.allowR r now).allowed = false ∧
      (lb.allowR r now).remaining = 0 ∧
      (r.getVal = .fail e ∨ r.getTime = .fail e ∨ r.setValErr = some e ∨
        r.setTimeErr = some e) ∧
      ((lb.allowR r now).writes = [] ∨
        (r.setValErr = none ∧ r.setTimeErr = some e ∧
          ∃ w, (lb.allowR r now).writes = [Write.val w lb.TTL]))) ∧
    (∀ (tb : TokenBucket) (r : StoreResp) (now : ℤ) (e : String),
      (tb.allowR r now).error = some e →
      (tb.allowR r now).allowed = false ∧
      (tb.allowR r now).remaining = 0 ∧
      (r.getVal = .fail e ∨ r.getTime = .fail e ∨ r.setValErr = some e ∨
        r.setTimeErr = some e) ∧
      ((tb.allowR r now).writes = [] ∨
        (r.setValErr = none ∧ r.setTimeErr = some e ∧
          ∃ w, (tb.allowR r now).writes = [Write.val w tb.TTL]))) :=
  ⟨leaky_allowR_error_cases, token_allowR_error_cases⟩

/-- Witness for C5 (amended): a failing first read surfaces the error
with `(false, 0, ·)` and an empty write list. -/
theorem allow_error_surfaced_witness :
    (lbEx.allowR ⟨.fail ("boom"), .missing, none, none⟩ 0).allowed =
        false ∧
    (lbEx.allowR ⟨.fail ("boom"), .missing, none, none⟩ 0).remaining =
        0 ∧
    ((⟨.fail ("boom"), .missing, none, none⟩ : StoreResp).getVal =
        .fail ("boom") ∨
      (⟨.fail ("boom"), .missing, none, none⟩ : StoreResp).getTime =
        .fail ("boom") ∨
      (⟨.fail ("boom"), .missing, none, none⟩ : StoreResp).setValErr =
        some ("boom") ∨
      (⟨.fail ("boom"), .missing, none, none⟩ : StoreResp).setTimeErr =
        some ("boom")) ∧
    ((lbEx.allowR ⟨.fail ("boom"), .missing, none, none⟩ 0).writes =
        [] ∨
      ((⟨.fail ("boom"), .missing, none, none⟩ : StoreResp).setValErr =
          none ∧
        (⟨.fail ("boom"), .missing, none, none⟩ : StoreResp).setTimeErr =
          some ("boom") ∧
        ∃ w, (lbEx.allowR ⟨.fail ("boom"), .missing, none, none⟩
          0).writes = [Write.val w lbEx.TTL])) :=
  allow_error_surfaced.1 lbEx ⟨.fail ("boom"), .missing, none, none⟩ 0
    ("boom") rfl

/-- Counterexample to C5 as stated: when both reads and the first `Set`
succeed but the second `Set` fails, the call returns
`(false, 0, error)` — yet the water field has already been written, so
the abort does not happen before any write. -/
theorem allow_error_after_write_cex :
    (lbEx.allowR ⟨.found 0, .found 0, none, some ("boom")⟩ 0).error =
        some ("boom") ∧
      (lbEx.allowR ⟨.found 0, .found 0, none, some ("boom")⟩ 0).writes =
        [Write.val 1 60] := by
  norm_num [lbEx, LeakyBucket.allowR]
